import Mathlib

/-!
# envoyclient: token cache and telemetry fetch

A shallow embedding of `envoyclient.go`.  The client object, the key-value
file `envoy.db`, the list of HTTP requests issued so far and the numbers of
clock readings and store openings are carried as explicit state.  What lives
outside the repository (clock, HTTP transport, JSON parser, binary time
codec, store faults) is a `World` of oracles that every theorem quantifies
over.
-/

namespace Envoy

/-! ## Data model -/

/-- A `time.Time`, reduced to the instant it denotes: nanoseconds counted from
the zero time.  Wall clock and monotonic clock are taken to be one clock. -/
structure Time where
  ns : Int
deriving DecidableEq, Repr

/-- The zero value `time.Time{}`. -/
def Time.zero : Time := ⟨0⟩

/-- The method `t.Before(u)`: strictly earlier. -/
def Time.Before (t u : Time) : Bool := decide (t.ns < u.ns)

/-- The method `t.Add(d)` for a duration in nanoseconds. -/
def Time.Add (t : Time) (d : Int) : Time := ⟨t.ns + d⟩

/-- The constant `time.Hour`, in nanoseconds. -/
def Hour : Int := 3600000000000

structure Config where
  Email : String
  Password : String
  EnvoySerialNo : String
  EnvoyIP : String
deriving DecidableEq, Repr

structure envoyCache where
  EnvoyToken : String
  EnvoyTokenExpiresAt : Time
deriving DecidableEq, Repr

structure EnvoyClient where
  Cache : envoyCache
  Config : Config
deriving DecidableEq, Repr

/-- A float64 read from JSON is finite and is only copied by this program, so
it is modelled by the rational it denotes.  The zero value is `0`. -/
abbrev Float64 := Rat

structure productionData where
  ProductionWattsNow : Float64
  ConsumptionWattsNow : Float64
deriving DecidableEq

/-! ## External collaborators -/

/-- A parsed JSON text.  Object members are kept in the order of the text. -/
inductive JVal where
  | null
  | bool (b : Bool)
  | num (x : Float64)
  | str (s : String)
  | arr (xs : List JVal)
  | obj (members : List (String × JVal))

/-- The body handed to an HTTP request. -/
inductive Payload where
  | none
  | form (values : List (String × String))
  | json (values : List (String × String))
deriving DecidableEq, Repr

structure Request where
  method : String
  url : String
  header : List (String × String)
  body : Payload
deriving DecidableEq, Repr

/-- An HTTP response: the whole body the server sent, and, when reading the
body breaks off, the number of characters delivered before the error. -/
structure Response where
  body : String
  readFailure : Option (Nat × String)

/-- The call `io.ReadAll(resp.Body)`: the data read and the error, if any. -/
def ReadAll (r : Response) : String × Option String :=
  match r.readFailure with
  | none => (r.body, none)
  | some (n, err) => (r.body.take n, some err)

/-- What can go wrong in one opening of the store. -/
structure Faults where
  openErr : Option String
  createErr : Option String
  putErr : String → Option String
  commitErr : Option String

/-- The oracles the program calls through. -/
structure World where
  /-- The k-th reading of `time.Now()`. -/
  Now : Nat → Time
  /-- The transport: requests issued so far, the request, its outcome. -/
  Do : List Request → Request → Except String Response
  /-- The JSON parser (syntax only); `none` is a syntax error. -/
  parseJSON : String → Option JVal
  /-- Whether `http.NewRequest` accepts the URL. -/
  NewRequest : String → Bool
  /-- The method `Time.MarshalBinary`. -/
  MarshalBinary : Time → Except String String
  /-- The method `Time.UnmarshalBinary`. -/
  UnmarshalBinary : String → Except String Time
  /-- The faults of the k-th opening of `envoy.db`. -/
  faults : Nat → Faults

/-- The state the program runs on: the client object, the bucket `envoy` of the
file `envoy.db` (`none` when the bucket does not exist), the requests issued,
and how often the clock was read and the store opened. -/
structure Sys where
  e : EnvoyClient
  db : Option (List (String × String))
  trace : List Request
  ticks : Nat
  opens : Nat

/-- Outcome of a call: a value, a returned error, or a run-time abort. -/
inductive Res (α : Type) where
  | ok (a : α)
  | err (msg : String)
  | aborted (msg : String)

/-- The call `b.Get(key)`: `none` is the nil slice of a missing key. -/
def bucketGet (b : List (String × String)) (key : String) : Option String :=
  List.lookup key b

/-- The call `b.Put(key, value)`: the key holds the new value only. -/
def bucketPut (b : List (String × String)) (key value : String) : List (String × String) :=
  (key, value) :: b.filter (fun kv => kv.1 != key)

/-! ## JSON decoding as done by `encoding/json` -/

/-- Case folding of one character as in key matching against an ASCII name. -/
def foldChar (c : Char) : Char :=
  if c = Char.ofNat 0x17F then 'S' else if c = Char.ofNat 0x212A then 'K' else c.toUpper

/-- The name folded character by character. -/
def foldName (s : String) : String := ⟨s.data.map foldChar⟩

/-- One object member decoded into `enphaseLoginResponse`: a key matching
`session_id` sets the field from a string, leaves it alone on `null`, and
records a type error otherwise; other keys are skipped. -/
def setSessionId (acc : String × Option String) (kv : String × JVal) : String × Option String :=
  if foldName kv.1 == "SESSION_ID" then
    match kv.2 with
    | .str s => (s, acc.2)
    | .null => acc
    | _ => (acc.1, acc.2 <|> some "json: cannot unmarshal into Go struct field enphaseLoginResponse.session_id of type string")
  else acc

/-- The call `json.Unmarshal(body, &response)` with `response` a fresh
`enphaseLoginResponse`: the field `SessionId` or the error. -/
def unmarshalLoginResponse (w : World) (body : String) : Except String String :=
  match w.parseJSON body with
  | none => .error "invalid character"
  | some (.obj members) =>
    match members.foldl setSessionId ("", none) with
    | (sid, none) => .ok sid
    | (_, some err) => .error err
  | some .null => .ok ""
  | some _ => .error "json: cannot unmarshal into Go value of type envoyclient.enphaseLoginResponse"

/-- The call `json.Unmarshal(jsonData, &resData)` with `resData` a nil
`map[string]interface{}`, its error dropped: the members of the object, or
nothing when the text is not an object. -/
def unmarshalMap (w : World) (jsonData : String) : List (String × JVal) :=
  match w.parseJSON jsonData with
  | some (.obj members) => members
  | _ => []

/-- Indexing `m[key]` of a decoded map: the last member of that name. -/
def mapIndex (m : List (String × JVal)) (key : String) : Option JVal :=
  List.lookup key m.reverse

/-! ## The program -/

/-- Method `readCache` (lines 42-77): one read-write transaction that creates the
bucket when missing and copies the two keys, where present, into the cache.
The error of `UnmarshalBinary` is dropped, the time then staying zero. -/
def readCache (w : World) (s : Sys) : Res Unit × Sys :=
  let f := w.faults s.opens
  let s0 : Sys := { s with opens := s.opens + 1 }
  match f.openErr with
  | some err => (.err ("error opening cache database: " ++ err), s0)
  | none =>
    match f.createErr with
    | some err => (.err ("could not create bucket: " ++ err), s0)
    | none =>
      let b := s.db.getD []
      let envoyToken :=
        match bucketGet b "envoyToken" with
        | some v => v
        | none => s.e.Cache.EnvoyToken
      let envoyTokenExpiresAt :=
        match bucketGet b "envoyTokenExpiresAt" with
        | some bin =>
          (match w.UnmarshalBinary bin with
           | .ok t => t
           | .error _ => Time.zero)
        | none => s.e.Cache.EnvoyTokenExpiresAt
      let e1 : EnvoyClient := { s.e with Cache := ⟨envoyToken, envoyTokenExpiresAt⟩ }
      match f.commitErr with
      | some err => (.err err, { s0 with e := e1 })
      | none => (.ok (), { s0 with e := e1, db := some b })

/-- Method `writeCache` (lines 79-112): one transaction putting both keys; an
error rolls the transaction back, a missing bucket is a nil dereference. -/
def writeCache (w : World) (s : Sys) : Res Unit × Sys :=
  let f := w.faults s.opens
  let s0 : Sys := { s with opens := s.opens + 1 }
  match f.openErr with
  | some err => (.err ("error opening cache database: " ++ err), s0)
  | none =>
    match s.db with
    | none => (.aborted "invalid memory address or nil pointer dereference", s0)
    | some b =>
      match f.putErr "envoyToken" with
      | some err => (.err ("error writing cache: could not write envoyToken: " ++ err), s0)
      | none =>
        let b1 := bucketPut b "envoyToken" s.e.Cache.EnvoyToken
        match w.MarshalBinary s.e.Cache.EnvoyTokenExpiresAt with
        | .error err =>
          (.err ("error writing cache: could not marshal envoyTokenExpiresAt: " ++ err), s0)
        | .ok expireBytes =>
          match f.putErr "envoyTokenExpiresAt" with
          | some err =>
            (.err ("error writing cache: could not write envoyTokenExpiresAt: " ++ err), s0)
          | none =>
            let b2 := bucketPut b1 "envoyTokenExpiresAt" expireBytes
            match f.commitErr with
            | some err => (.err ("error writing cache: " ++ err), s0)
            | none => (.ok (), { s0 with db := some b2 })

/-- The request built in `getEnphaseSessionId`. -/
def loginRequest (c : Config) : Request :=
  { method := "POST"
    url := "https://enlighten.enphaseenergy.com/login/login.json"
    header := [("Content-Type", "application/x-www-form-urlencoded")]
    body := .form [("user[email]", c.Email), ("user[password]", c.Password)] }

/-- Method `getEnphaseSessionId` (lines 160-189). -/
def getEnphaseSessionId (w : World) (s : Sys) : Res String × Sys :=
  let req := loginRequest s.e.Config
  let s1 : Sys := { s with trace := s.trace ++ [req] }
  match w.Do s.trace req with
  | .error err => (.err ("error making request: " ++ err), s1)
  | .ok resp =>
    match ReadAll resp with
    | (_, some err) => (.err ("error reading response body: " ++ err), s1)
    | (body, none) =>
      match unmarshalLoginResponse w body with
      | .error err => (.err ("error unmarshaling response body: " ++ err), s1)
      | .ok sessionId => (.ok sessionId, s1)

/-- The request built in `requestNewEnvoyToken`. -/
def tokenRequest (c : Config) (sessionId : String) : Request :=
  { method := "POST"
    url := "https://entrez.enphaseenergy.com/tokens"
    header := [("Content-Type", "application/json")]
    body := .json [("session_id", sessionId), ("serial_num", c.EnvoySerialNo),
                   ("username", c.Email)] }

/-- Method `requestNewEnvoyToken` (lines 114-140): the error of reading the
token body is dropped and whatever was read is the token. -/
def requestNewEnvoyToken (w : World) (s : Sys) : Res String × Sys :=
  match getEnphaseSessionId w s with
  | (.err msg, s1) => (.err msg, s1)
  | (.aborted msg, s1) => (.aborted msg, s1)
  | (.ok sessionId, s1) =>
    let req := tokenRequest s1.e.Config sessionId
    let s2 : Sys := { s1 with trace := s1.trace ++ [req] }
    match w.Do s1.trace req with
    | .error err => (.err ("error making request: " ++ err), s2)
    | .ok resp => (.ok (ReadAll resp).1, s2)

/-- Method `getEnvoyToken` (lines 142-158).  The test reads the clock only when
the token is non-empty; the result of `requestNewEnvoyToken` is stored in the
cache before its error is looked at, and is the empty string on error. -/
def getEnvoyToken (w : World) (s : Sys) : Res String × Sys :=
  let expired : Bool × Sys :=
    if s.e.Cache.EnvoyToken = "" then (true, s)
    else (s.e.Cache.EnvoyTokenExpiresAt.Before (w.Now s.ticks), { s with ticks := s.ticks + 1 })
  if expired.1 then
    match requestNewEnvoyToken w expired.2 with
    | (.aborted msg, s1) => (.aborted msg, s1)
    | (.err msg, s1) =>
      (.err ("error requesting new envoy token: " ++ msg),
       { s1 with e := { s1.e with Cache := { s1.e.Cache with EnvoyToken := "" } } })
    | (.ok tok, s1) =>
      let s2 : Sys :=
        { s1 with
          e := { s1.e with Cache := ⟨tok, (w.Now s1.ticks).Add (Hour * 24)⟩ }
          ticks := s1.ticks + 1 }
      match writeCache w s2 with
      | (.aborted msg, s3) => (.aborted msg, s3)
      | (.err msg, s3) => (.err ("error writing cache: " ++ msg), s3)
      | (.ok _, s3) => (.ok s3.e.Cache.EnvoyToken, s3)
  else (.ok expired.2.e.Cache.EnvoyToken, expired.2)

/-- The request built in `GetProductionData`. -/
def productionRequest (c : Config) (envoyToken : String) : Request :=
  { method := "GET"
    url := "https://" ++ c.EnvoyIP ++ "/production.json"
    header := [("Authorization", "Bearer " ++ envoyToken)]
    body := .none }

/-- One of the two loops of `GetProductionData` over an array: `cur` is the
output field so far, `none` is a failed type assertion. -/
def scan (measurementType : String) (cur : Float64) : List JVal → Option Float64
  | [] => some cur
  | .obj vals :: rest =>
    match mapIndex vals "measurementType" with
    | some (.str t) =>
      if t = measurementType then
        match mapIndex vals "wNow" with
        | some (.num x) => scan measurementType x rest
        | _ => none
      else scan measurementType cur rest
    | _ => scan measurementType cur rest
  | _ :: _ => none

/-- Method `GetProductionData` (lines 191-237).  The errors of `http.NewRequest`,
`io.ReadAll` and `json.Unmarshal` are dropped; a nil request and a failed type
assertion abort the call. -/
def GetProductionData (w : World) (s : Sys) : Res productionData × Sys :=
  match getEnvoyToken w s with
  | (.aborted msg, s1) => (.aborted msg, s1)
  | (.err msg, s1) => (.err ("error getting envoy token: " ++ msg), s1)
  | (.ok envoyToken, s1) =>
    let req := productionRequest s1.e.Config envoyToken
    if w.NewRequest req.url = false then
      (.aborted "invalid memory address or nil pointer dereference", s1)
    else
      let s2 : Sys := { s1 with trace := s1.trace ++ [req] }
      match w.Do s1.trace req with
      | .error err => (.err ("error making request: " ++ err), s2)
      | .ok res =>
        let resData := unmarshalMap w (ReadAll res).1
        match mapIndex resData "consumption" with
        | some (.arr consumption) =>
          match mapIndex resData "production" with
          | some (.arr production) =>
            match scan "total-consumption" 0 consumption with
            | none => (.aborted "interface conversion", s2)
            | some c =>
              match scan "production" 0 production with
              | none => (.aborted "interface conversion", s2)
              | some p => (.ok ⟨p, c⟩, s2)
          | _ => (.aborted "interface conversion", s2)
        | _ => (.aborted "interface conversion", s2)

/-- The state in which `NewClient` starts `readCache`: a zero client with the
configuration set. -/
def freshClient (c : Config) : EnvoyClient := { Cache := ⟨"", Time.zero⟩, Config := c }

/-- Function `NewClient` (lines 239-248). -/
def NewClient (w : World) (c : Config) (s : Sys) : Res EnvoyClient × Sys :=
  match readCache w { s with e := freshClient c } with
  | (.ok _, s1) => (.ok s1.e, s1)
  | (.err msg, s1) => (.err ("error reading cache: " ++ msg), s1)
  | (.aborted msg, s1) => (.aborted msg, s1)

/-! ## What the specification says about a telemetry array -/

/-- The field `measurementType` of an array element, when it is an object
holding a string there. -/
def measurementTypeOf : JVal → Option String
  | .obj vals =>
    match mapIndex vals "measurementType" with
    | some (.str t) => some t
    | _ => none
  | _ => none

/-- The field `wNow` of an array element, when it is an object holding a
number there. -/
def wNowOf : JVal → Option Float64
  | .obj vals =>
    match mapIndex vals "wNow" with
    | some (.num x) => some x
    | _ => none
  | _ => none

/-- A measurement object: an object with a string `measurementType` and a
numeric `wNow`. -/
def isMeasurement (v : JVal) : Bool := (measurementTypeOf v).isSome && (wNowOf v).isSome

/-- Whether a JSON value is an object. -/
def isObject : JVal → Bool
  | .obj _ => true
  | _ => false

/-- The reading the specification asks for: the `wNow` of the last element, in
array order, whose `measurementType` is the given one, and zero when there is
no such element. -/
def lastWNow (measurementType : String) (xs : List JVal) : Float64 :=
  match (xs.filter (fun v => measurementTypeOf v == some measurementType)).getLast? with
  | some v => (wNowOf v).getD 0
  | none => 0

/-! ## Concrete worlds and states -/

def demoConfig : Config :=
  { Email := "owner@example.com", Password := "secret", EnvoySerialNo := "122000000001",
    EnvoyIP := "192.168.1.50" }

def loginBody : String := "\x7b\"session_id\":\"sid-1\"\x7d"

def emptyObjectBody : String := "\x7b\x7d"

def telemetryBody : String :=
  "\x7b\"production\":[\x7b\"measurementType\":\"production\",\"wNow\":567.8\x7d]," ++
  "\"consumption\":[\x7b\"measurementType\":\"total-consumption\",\"wNow\":123.4\x7d]\x7d"

def telemetryJSON : JVal :=
  .obj [("production", .arr [.obj [("measurementType", .str "production"), ("wNow", .num 567.8)]]),
        ("consumption",
          .arr [.obj [("measurementType", .str "total-consumption"), ("wNow", .num 123.4)]])]

def netOnlyBody : String :=
  "\x7b\"production\":[\x7b\"measurementType\":\"production\",\"wNow\":567.8\x7d]," ++
  "\"consumption\":[\x7b\"measurementType\":\"net-consumption\",\"wNow\":-20.5\x7d]\x7d"

def netOnlyJSON : JVal :=
  .obj [("production", .arr [.obj [("measurementType", .str "production"), ("wNow", .num 567.8)]]),
        ("consumption",
          .arr [.obj [("measurementType", .str "net-consumption"), ("wNow", .num (-20.5))]])]

/-- A toy binary time codec: the decimal digits of a non-negative instant. -/
def demoMarshal (t : Time) : Except String String :=
  if t.ns < 0 then .error "instant before the zero time"
  else .ok ⟨Nat.toDigits 10 t.ns.toNat⟩

def demoUnmarshal (data : String) : Except String Time :=
  if data.data.isEmpty then .error "Time.UnmarshalBinary: no data"
  else .ok ⟨Int.ofNat (data.data.foldl (fun n c => 10 * n + (c.toNat - 48)) 0)⟩

/-- A world in which every collaborator works: the cloud hands out session
`sid-1` and the token given, the device serves the telemetry body given, the
clock advances one second per reading. -/
def demoWorld (token telemetry : String) : World where
  Now k := ⟨1700000000000000000 + 1000000000 * (k : Int)⟩
  Do _ req :=
    if req.url = "https://enlighten.enphaseenergy.com/login/login.json" then
      .ok ⟨loginBody, none⟩
    else if req.url = "https://entrez.enphaseenergy.com/tokens" then .ok ⟨token, none⟩
    else .ok ⟨telemetry, none⟩
  parseJSON body :=
    if body = loginBody then some (.obj [("session_id", .str "sid-1")])
    else if body = emptyObjectBody then some (.obj [])
    else if body = telemetryBody then some telemetryJSON
    else if body = netOnlyBody then some netOnlyJSON
    else none
  NewRequest _ := true
  MarshalBinary := demoMarshal
  UnmarshalBinary := demoUnmarshal
  faults _ := ⟨none, none, fun _ => none, none⟩

/-- The state right after `NewClient` on a store that held nothing. -/
def startSys : Sys :=
  { e := freshClient demoConfig, db := some [], trace := [], ticks := 0, opens := 1 }

/-- A client holding token `cached-token` that expires at the very instant of
the next clock reading of `demoWorld`. -/
def boundarySys : Sys :=
  { e := { Cache := ⟨"cached-token", ⟨1700000000000000000⟩⟩, Config := demoConfig }
    db := some [], trace := [], ticks := 0, opens := 1 }

/-- A client holding token `cached-token`, good for another hour. -/
def validSys : Sys :=
  { e := { Cache := ⟨"cached-token", ⟨1700003600000000000⟩⟩, Config := demoConfig }
    db := some [], trace := [], ticks := 0, opens := 1 }

/-- A client holding token `old-token`, expired for an hour. -/
def expiredSys : Sys :=
  { e := { Cache := ⟨"old-token", ⟨1699996400000000000⟩⟩, Config := demoConfig }
    db := some [("envoyToken", "old-token")], trace := [], ticks := 0, opens := 1 }

/-- As `demoWorld`, but the cloud answers the login with the empty object. -/
def emptyLoginWorld : World :=
  { demoWorld "tok-A" telemetryBody with
    Do := fun _ req =>
      if req.url = "https://enlighten.enphaseenergy.com/login/login.json" then
        .ok ⟨emptyObjectBody, none⟩
      else if req.url = "https://entrez.enphaseenergy.com/tokens" then .ok ⟨"tok-A", none⟩
      else .ok ⟨telemetryBody, none⟩ }

/-- As `demoWorld`, but no request gets through. -/
def offlineWorld : World :=
  { demoWorld "tok-A" telemetryBody with
    Do := fun _ _ => .error "dial tcp: connect: network is unreachable" }

/-- An array element that a loop of `GetProductionData` looking for the given
measurement type gets past: an object which, when its `measurementType` is
the one looked for, holds a number under `wNow`. -/
def passesScan (measurementType : String) (v : JVal) : Prop :=
  isObject v = true ∧ (measurementTypeOf v = some measurementType → (wNowOf v).isSome = true)

def productionOnlyBody : String :=
  "\x7b\"production\":[\x7b\"measurementType\":\"production\",\"wNow\":567.8\x7d]\x7d"

/-- As `demoWorld`, but the device serves a payload with no `consumption`
field at all. -/
def productionOnlyWorld : World :=
  { demoWorld "tok-A" productionOnlyBody with
    parseJSON := fun body =>
      if body = productionOnlyBody then
        some (.obj [("production",
          .arr [.obj [("measurementType", .str "production"), ("wNow", .num 567.8)]])])
      else none }

def mixedBody : String :=
  "\x7b\"production\":[\x7b\"type\":\"inverters\"\x7d," ++
  "\x7b\"measurementType\":\"production\",\"wNow\":567.8\x7d]," ++
  "\"consumption\":[\x7b\"measurementType\":\"net-consumption\"\x7d]\x7d"

/-- As `demoWorld`, but the device serves a payload whose arrays hold objects
that are not all measurement objects, none of type `total-consumption`. -/
def mixedWorld : World :=
  { demoWorld "tok-A" mixedBody with
    parseJSON := fun body =>
      if body = mixedBody then
        some (.obj [("production",
                .arr [.obj [("type", .str "inverters")],
                      .obj [("measurementType", .str "production"), ("wNow", .num 567.8)]]),
              ("consumption", .arr [.obj [("measurementType", .str "net-consumption")]])])
      else none }

/-- Number of clock readings taken once the test at the head of `getEnvoyToken`
is over: the test reads the clock only when the cached token is non-empty. -/
def ticksAfterTest (s : Sys) : Nat :=
  if s.e.Cache.EnvoyToken = "" then s.ticks else s.ticks + 1

/-! ## Frame lemmas -/

theorem bucketGet_bucketPut_same (b : List (String × String)) (key value : String) :
    bucketGet (bucketPut b key value) key = some value := by
  simp [bucketGet, bucketPut, List.lookup]

theorem lookup_filter_ne (b : List (String × String)) (key other : String) (h : other ≠ key) :
    List.lookup other (b.filter (fun kv => kv.1 != key)) = List.lookup other b := by
  induction b with
  | nil => rfl
  | cons kv rest ih =>
    obtain ⟨k, v⟩ := kv
    by_cases hk : k = key
    · subst hk
      have hne : (other == k) = false := by simpa using h
      simp [List.filter, List.lookup, hne, ih]
    · have hk2 : (k != key) = true := by simpa using hk
      simp only [List.filter, hk2, List.lookup, ih]

theorem bucketGet_bucketPut_other (b : List (String × String)) (key other value : String)
    (h : other ≠ key) :
    bucketGet (bucketPut b key value) other = bucketGet b other := by
  have hne : (other == key) = false := by simpa using h
  simp [bucketGet, bucketPut, List.lookup, hne, lookup_filter_ne b key other h]

theorem getEnphaseSessionId_state (w : World) (s : Sys) :
    (getEnphaseSessionId w s).2 = { s with trace := s.trace ++ [loginRequest s.e.Config] } := by
  unfold getEnphaseSessionId
  dsimp only
  repeat (first | rfl | split)

theorem requestNewEnvoyToken_frame (w : World) (s : Sys) :
    (requestNewEnvoyToken w s).2.e = s.e ∧ (requestNewEnvoyToken w s).2.db = s.db ∧
    (requestNewEnvoyToken w s).2.ticks = s.ticks ∧ (requestNewEnvoyToken w s).2.opens = s.opens ∧
    ∃ rest, (requestNewEnvoyToken w s).2.trace = s.trace ++ loginRequest s.e.Config :: rest := by
  have h := getEnphaseSessionId_state w s
  unfold requestNewEnvoyToken
  split
  · rename_i msg s1 heq
    rw [heq] at h; simp only at h; subst h
    exact ⟨rfl, rfl, rfl, rfl, [], rfl⟩
  · rename_i msg s1 heq
    rw [heq] at h; simp only at h; subst h
    exact ⟨rfl, rfl, rfl, rfl, [], rfl⟩
  · rename_i sid s1 heq
    rw [heq] at h; simp only at h; subst h
    dsimp only
    split
    · exact ⟨rfl, rfl, rfl, rfl, [tokenRequest s.e.Config sid], by simp⟩
    · exact ⟨rfl, rfl, rfl, rfl, [tokenRequest s.e.Config sid], by simp⟩

theorem writeCache_frame (w : World) (s : Sys) :
    (writeCache w s).2.e = s.e ∧ (writeCache w s).2.trace = s.trace ∧
    (writeCache w s).2.ticks = s.ticks ∧ (writeCache w s).2.opens = s.opens + 1 := by
  unfold writeCache
  dsimp only
  repeat (first | exact ⟨rfl, rfl, rfl, rfl⟩ | split)

theorem writeCache_frame_of_eq (w : World) (s s1 : Sys) (r : Res Unit)
    (h : writeCache w s = (r, s1)) :
    s1.e = s.e ∧ s1.trace = s.trace ∧ s1.ticks = s.ticks ∧ s1.opens = s.opens + 1 := by
  have hf := writeCache_frame w s
  rw [h] at hf
  exact hf

theorem getEnphaseSessionId_ok (w : World) (s : Sys) (r : Response) (sid : String)
    (hdo : w.Do s.trace (loginRequest s.e.Config) = .ok r)
    (hread : r.readFailure = none)
    (hdec : unmarshalLoginResponse w r.body = .ok sid) :
    getEnphaseSessionId w s =
      (.ok sid, { s with trace := s.trace ++ [loginRequest s.e.Config] }) := by
  simp [getEnphaseSessionId, hdo, ReadAll, hread, hdec]

theorem requestNewEnvoyToken_ok (w : World) (s : Sys) (sid : String) (r : Response)
    (hsid : (getEnphaseSessionId w s).1 = .ok sid)
    (hdo : w.Do (s.trace ++ [loginRequest s.e.Config]) (tokenRequest s.e.Config sid) = .ok r) :
    requestNewEnvoyToken w s =
      (.ok (ReadAll r).1,
       { s with trace := s.trace ++ [loginRequest s.e.Config, tokenRequest s.e.Config sid] }) := by
  have h := getEnphaseSessionId_state w s
  unfold requestNewEnvoyToken
  split
  · rename_i heq; rw [heq] at hsid; cases hsid
  · rename_i heq; rw [heq] at hsid; cases hsid
  · rename_i sid1 s1 heq
    rw [heq] at h hsid; simp only at h; subst h
    simp only [Res.ok.injEq] at hsid; subst hsid
    simp [hdo]

/-- A successful mint issued exactly the login request and one token request,
and changed nothing else. -/
theorem requestNewEnvoyToken_ok_inv (w : World) (s s1 : Sys) (tok : String)
    (h : requestNewEnvoyToken w s = (.ok tok, s1)) :
    ∃ sid, s1 =
      { s with trace := s.trace ++ [loginRequest s.e.Config, tokenRequest s.e.Config sid] } := by
  have hs := getEnphaseSessionId_state w s
  unfold requestNewEnvoyToken at h
  split at h
  · cases h
  · cases h
  · rename_i sid s2 heq
    rw [heq] at hs; simp only at hs; subst hs
    dsimp only at h
    split at h
    · cases h
    · simp only [Prod.mk.injEq, Res.ok.injEq] at h
      exact ⟨sid, by rw [← h.2]; simp⟩

theorem requestNewEnvoyToken_not_aborted (w : World) (s s1 : Sys) (msg : String) :
    requestNewEnvoyToken w s ≠ (.aborted msg, s1) := by
  intro h
  unfold requestNewEnvoyToken at h
  split at h
  · cases h
  · rename_i m s2 heq
    unfold getEnphaseSessionId at heq
    dsimp only at heq
    repeat (first | cases heq | split at heq)
  · dsimp only at h
    split at h <;> cases h

/-! ## Token reuse -/

/-- C1: with a non-empty cached token whose expiry is strictly after the
current time, `getEnvoyToken` returns exactly the cached token with no error,
issues no request, does not touch the store, and leaves the cache as it was. -/
theorem getEnvoyToken_reuses_valid_token (w : World) (s : Sys)
    (htok : s.e.Cache.EnvoyToken ≠ "")
    (hexp : (w.Now s.ticks).ns < s.e.Cache.EnvoyTokenExpiresAt.ns) :
    (getEnvoyToken w s).1 = .ok s.e.Cache.EnvoyToken ∧
    (getEnvoyToken w s).2.trace = s.trace ∧
    (getEnvoyToken w s).2.db = s.db ∧
    (getEnvoyToken w s).2.opens = s.opens ∧
    (getEnvoyToken w s).2.e = s.e := by
  have hb : s.e.Cache.EnvoyTokenExpiresAt.Before (w.Now s.ticks) = false := by
    simp only [Time.Before, decide_eq_false_iff_not]; omega
  simp [getEnvoyToken, htok, hb]

theorem getEnvoyToken_reuses_valid_token_witness :
    (getEnvoyToken (demoWorld "tok-A" telemetryBody) validSys).1 = .ok "cached-token" ∧
    (getEnvoyToken (demoWorld "tok-A" telemetryBody) validSys).2.trace = [] ∧
    (getEnvoyToken (demoWorld "tok-A" telemetryBody) validSys).2.db = some [] ∧
    (getEnvoyToken (demoWorld "tok-A" telemetryBody) validSys).2.opens = 1 ∧
    (getEnvoyToken (demoWorld "tok-A" telemetryBody) validSys).2.e = validSys.e :=
  getEnvoyToken_reuses_valid_token (demoWorld "tok-A" telemetryBody) validSys
    (by decide) (by decide)

/-- C2, as stated, fails: a non-empty token whose expiry equals the current
time exactly is returned from the cache and no request is issued. -/
theorem getEnvoyToken_expiry_equal_now_counterexample :
    boundarySys.e.Cache.EnvoyToken ≠ "" ∧
    boundarySys.e.Cache.EnvoyTokenExpiresAt = (demoWorld "tok-A" telemetryBody).Now boundarySys.ticks ∧
    (getEnvoyToken (demoWorld "tok-A" telemetryBody) boundarySys).1 = .ok "cached-token" ∧
    (getEnvoyToken (demoWorld "tok-A" telemetryBody) boundarySys).2.trace = [] ∧
    (getEnvoyToken (demoWorld "tok-A" telemetryBody) boundarySys).2.db = boundarySys.db := by
  refine ⟨by decide, by decide, rfl, rfl, rfl⟩

/-- C2, amended: a non-empty token whose expiry equals the current time exactly
is still valid: `getEnvoyToken` returns it from the cache, issues no request,
does not touch the store and leaves the cache as it was. -/
theorem getEnvoyToken_expiry_equal_now (w : World) (s : Sys)
    (htok : s.e.Cache.EnvoyToken ≠ "")
    (heq : s.e.Cache.EnvoyTokenExpiresAt = w.Now s.ticks) :
    (getEnvoyToken w s).1 = .ok s.e.Cache.EnvoyToken ∧
    (getEnvoyToken w s).2.trace = s.trace ∧
    (getEnvoyToken w s).2.db = s.db ∧
    (getEnvoyToken w s).2.opens = s.opens ∧
    (getEnvoyToken w s).2.e = s.e := by
  have hb : s.e.Cache.EnvoyTokenExpiresAt.Before (w.Now s.ticks) = false := by
    simp [Time.Before, heq]
  simp [getEnvoyToken, htok, hb]

theorem getEnvoyToken_expiry_equal_now_witness :
    (getEnvoyToken (demoWorld "tok-A" telemetryBody) boundarySys).1 = .ok "cached-token" ∧
    (getEnvoyToken (demoWorld "tok-A" telemetryBody) boundarySys).2.trace = [] ∧
    (getEnvoyToken (demoWorld "tok-A" telemetryBody) boundarySys).2.db = some [] ∧
    (getEnvoyToken (demoWorld "tok-A" telemetryBody) boundarySys).2.opens = 1 ∧
    (getEnvoyToken (demoWorld "tok-A" telemetryBody) boundarySys).2.e = boundarySys.e :=
  getEnvoyToken_expiry_equal_now (demoWorld "tok-A" telemetryBody) boundarySys
    (by decide) (by decide)

/-- The other side of the boundary: with a non-empty token whose expiry is
strictly before the current time the mint sequence starts, its first request
being the cloud login. -/
theorem getEnvoyToken_mints_when_expired (w : World) (s : Sys)
    (htok : s.e.Cache.EnvoyToken ≠ "")
    (hlt : s.e.Cache.EnvoyTokenExpiresAt.ns < (w.Now s.ticks).ns) :
    ∃ rest, (getEnvoyToken w s).2.trace = s.trace ++ loginRequest s.e.Config :: rest := by
  have hb : s.e.Cache.EnvoyTokenExpiresAt.Before (w.Now s.ticks) = true := by
    simp [Time.Before, hlt]
  obtain ⟨he, hdb, hti, hop, rest, htr⟩ :=
    requestNewEnvoyToken_frame w { s with ticks := s.ticks + 1 }
  simp only [getEnvoyToken, htok, hb, if_true, if_false]
  split
  · rename_i heq; rw [heq] at htr; exact ⟨rest, htr⟩
  · rename_i heq; rw [heq] at htr; exact ⟨rest, htr⟩
  · rename_i tok s1 heq
    rw [heq] at htr
    refine ⟨rest, ?_⟩
    simp only at htr
    dsimp only
    split
    all_goals
      rename_i heq2
      have hw := (writeCache_frame_of_eq w _ _ _ heq2).2.1
      simp only at hw
      simp only [hw, htr]

/-! ## Minting -/

/-- The state in which the mint sequence starts. -/
theorem getEnvoyToken_mint_eq (w : World) (s : Sys)
    (hneed : s.e.Cache.EnvoyToken = "" ∨ s.e.Cache.EnvoyTokenExpiresAt.ns < (w.Now s.ticks).ns) :
    getEnvoyToken w s =
      match requestNewEnvoyToken w { s with ticks := ticksAfterTest s } with
      | (.aborted msg, s1) => (.aborted msg, s1)
      | (.err msg, s1) =>
        (.err ("error requesting new envoy token: " ++ msg),
         { s1 with e := { s1.e with Cache := { s1.e.Cache with EnvoyToken := "" } } })
      | (.ok tok, s1) =>
        match writeCache w
            { s1 with
              e := { s1.e with Cache := ⟨tok, (w.Now s1.ticks).Add (Hour * 24)⟩ }
              ticks := s1.ticks + 1 } with
        | (.aborted msg, s3) => (.aborted msg, s3)
        | (.err msg, s3) => (.err ("error writing cache: " ++ msg), s3)
        | (.ok _, s3) => (.ok s3.e.Cache.EnvoyToken, s3) := by
  by_cases htok : s.e.Cache.EnvoyToken = ""
  · simp [getEnvoyToken, ticksAfterTest, htok]
  · have hlt := hneed.resolve_left htok
    have hb : s.e.Cache.EnvoyTokenExpiresAt.Before (w.Now s.ticks) = true := by
      simp [Time.Before, hlt]
    simp [getEnvoyToken, ticksAfterTest, htok, hb]

theorem writeCache_ok (w : World) (s : Sys) (b : List (String × String)) (bytes : String)
    (hdb : s.db = some b)
    (hopen : (w.faults s.opens).openErr = none)
    (hput1 : (w.faults s.opens).putErr "envoyToken" = none)
    (hput2 : (w.faults s.opens).putErr "envoyTokenExpiresAt" = none)
    (hcommit : (w.faults s.opens).commitErr = none)
    (hmar : w.MarshalBinary s.e.Cache.EnvoyTokenExpiresAt = .ok bytes) :
    writeCache w s =
      (.ok (),
       { s with
         opens := s.opens + 1
         db := some (bucketPut (bucketPut b "envoyToken" s.e.Cache.EnvoyToken)
                      "envoyTokenExpiresAt" bytes) }) := by
  simp [writeCache, hdb, hopen, hput1, hput2, hcommit, hmar]

/-- The outcome of a mint in which login, token exchange and store write
succeed. -/
theorem getEnvoyToken_mint_ok (w : World) (s : Sys) (r1 r2 : Response)
    (sid bytes : String) (b : List (String × String))
    (hneed : s.e.Cache.EnvoyToken = "" ∨ s.e.Cache.EnvoyTokenExpiresAt.ns < (w.Now s.ticks).ns)
    (hlogin : w.Do s.trace (loginRequest s.e.Config) = .ok r1)
    (hread1 : r1.readFailure = none)
    (hdec : unmarshalLoginResponse w r1.body = .ok sid)
    (htoken : w.Do (s.trace ++ [loginRequest s.e.Config]) (tokenRequest s.e.Config sid) = .ok r2)
    (hdb : s.db = some b)
    (hopen : (w.faults s.opens).openErr = none)
    (hput1 : (w.faults s.opens).putErr "envoyToken" = none)
    (hput2 : (w.faults s.opens).putErr "envoyTokenExpiresAt" = none)
    (hcommit : (w.faults s.opens).commitErr = none)
    (hmar : w.MarshalBinary ((w.Now (ticksAfterTest s)).Add (Hour * 24)) = .ok bytes) :
    getEnvoyToken w s =
      (.ok (ReadAll r2).1,
       { e := { Cache := ⟨(ReadAll r2).1, (w.Now (ticksAfterTest s)).Add (Hour * 24)⟩,
                Config := s.e.Config }
         db := some (bucketPut (bucketPut b "envoyToken" (ReadAll r2).1)
                      "envoyTokenExpiresAt" bytes)
         trace := s.trace ++ [loginRequest s.e.Config, tokenRequest s.e.Config sid]
         ticks := ticksAfterTest s + 1
         opens := s.opens + 1 }) := by
  have hsid : (getEnphaseSessionId w { s with ticks := ticksAfterTest s }).1 = .ok sid := by
    rw [getEnphaseSessionId_ok w { s with ticks := ticksAfterTest s } r1 sid hlogin hread1 hdec]
  have hreq := requestNewEnvoyToken_ok w { s with ticks := ticksAfterTest s } sid r2 hsid htoken
  rw [getEnvoyToken_mint_eq w s hneed, hreq]
  dsimp only
  have hw := writeCache_ok w
    { e := { Cache := ⟨(ReadAll r2).1, (w.Now (ticksAfterTest s)).Add (Hour * 24)⟩,
             Config := s.e.Config }
      db := s.db
      trace := s.trace ++ [loginRequest s.e.Config, tokenRequest s.e.Config sid]
      ticks := ticksAfterTest s + 1
      opens := s.opens } b bytes hdb hopen hput1 hput2 hcommit hmar
  rw [hw]

/-- C3: when the cached token is empty or expired and login, token exchange
and store write all succeed, `getEnvoyToken` returns the entire body of the
token-endpoint response, caches that string with expiry now plus 24 hours,
and the store holds the same record under `envoyToken` and
`envoyTokenExpiresAt`. -/
theorem getEnvoyToken_mint_success (w : World) (s : Sys) (r1 r2 : Response)
    (sid bytes : String) (b : List (String × String))
    (hneed : s.e.Cache.EnvoyToken = "" ∨ s.e.Cache.EnvoyTokenExpiresAt.ns < (w.Now s.ticks).ns)
    (hlogin : w.Do s.trace (loginRequest s.e.Config) = .ok r1)
    (hread1 : r1.readFailure = none)
    (hdec : unmarshalLoginResponse w r1.body = .ok sid)
    (htoken : w.Do (s.trace ++ [loginRequest s.e.Config]) (tokenRequest s.e.Config sid) = .ok r2)
    (hread2 : r2.readFailure = none)
    (hdb : s.db = some b)
    (hopen : (w.faults s.opens).openErr = none)
    (hput1 : (w.faults s.opens).putErr "envoyToken" = none)
    (hput2 : (w.faults s.opens).putErr "envoyTokenExpiresAt" = none)
    (hcommit : (w.faults s.opens).commitErr = none)
    (hmar : w.MarshalBinary ((w.Now (ticksAfterTest s)).Add (Hour * 24)) = .ok bytes) :
    (getEnvoyToken w s).1 = .ok r2.body ∧
    (getEnvoyToken w s).2.e.Cache = ⟨r2.body, (w.Now (ticksAfterTest s)).Add (Hour * 24)⟩ ∧
    ∃ b1, (getEnvoyToken w s).2.db = some b1 ∧
      bucketGet b1 "envoyToken" = some (getEnvoyToken w s).2.e.Cache.EnvoyToken ∧
      bucketGet b1 "envoyTokenExpiresAt" = some bytes ∧
      w.MarshalBinary (getEnvoyToken w s).2.e.Cache.EnvoyTokenExpiresAt = .ok bytes := by
  have hbody : (ReadAll r2).1 = r2.body := by simp [ReadAll, hread2]
  rw [getEnvoyToken_mint_ok w s r1 r2 sid bytes b hneed hlogin hread1 hdec htoken hdb hopen hput1
    hput2 hcommit hmar]
  dsimp only
  refine ⟨by rw [hbody], by rw [hbody], _, rfl, ?_, ?_, hmar⟩
  · rw [bucketGet_bucketPut_other _ _ _ _ (by decide), bucketGet_bucketPut_same]
  · rw [bucketGet_bucketPut_same]

theorem getEnvoyToken_mint_success_witness :
    (getEnvoyToken (demoWorld "tok-A" telemetryBody) expiredSys).1 = .ok "tok-A" ∧
    (getEnvoyToken (demoWorld "tok-A" telemetryBody) expiredSys).2.e.Cache =
      ⟨"tok-A", ⟨1700086401000000000⟩⟩ ∧
    ∃ b1, (getEnvoyToken (demoWorld "tok-A" telemetryBody) expiredSys).2.db = some b1 ∧
      bucketGet b1 "envoyToken" =
        some (getEnvoyToken (demoWorld "tok-A" telemetryBody) expiredSys).2.e.Cache.EnvoyToken ∧
      bucketGet b1 "envoyTokenExpiresAt" = some "1700086401000000000" ∧
      (demoWorld "tok-A" telemetryBody).MarshalBinary
        (getEnvoyToken (demoWorld "tok-A" telemetryBody) expiredSys).2.e.Cache.EnvoyTokenExpiresAt =
        .ok "1700086401000000000" :=
  getEnvoyToken_mint_success (demoWorld "tok-A" telemetryBody) expiredSys ⟨loginBody, none⟩
    ⟨"tok-A", none⟩ "sid-1" "1700086401000000000" [("envoyToken", "old-token")]
    (Or.inr (by decide)) rfl rfl rfl rfl rfl rfl rfl rfl rfl rfl rfl

/-! ## The telemetry call -/

/-- Once the token is there and the request can be built, `GetProductionData`
issues exactly one more request, whatever the device answers. -/
theorem GetProductionData_state (w : World) (s sa : Sys) (tok : String)
    (htok : getEnvoyToken w s = (.ok tok, sa))
    (hnew : w.NewRequest (productionRequest sa.e.Config tok).url = true) :
    (GetProductionData w s).2 =
      { sa with trace := sa.trace ++ [productionRequest sa.e.Config tok] } := by
  unfold GetProductionData
  rw [htok]
  simp only [hnew, Bool.true_eq_false, if_false]
  repeat (first | rfl | split)

/-- C4: on a client whose cache is the zero value, when every external call
succeeds, `GetProductionData` issues exactly three requests, in this order:
POST to the cloud login endpoint, POST to the device token endpoint, GET to
`/production.json` on the device. -/
theorem GetProductionData_empty_cache_three_calls (w : World) (s : Sys) (r1 r2 : Response)
    (sid bytes : String) (b : List (String × String))
    (hcache : s.e.Cache = ⟨"", Time.zero⟩)
    (hlogin : w.Do s.trace (loginRequest s.e.Config) = .ok r1)
    (hread1 : r1.readFailure = none)
    (hdec : unmarshalLoginResponse w r1.body = .ok sid)
    (htoken : w.Do (s.trace ++ [loginRequest s.e.Config]) (tokenRequest s.e.Config sid) = .ok r2)
    (hdb : s.db = some b)
    (hopen : (w.faults s.opens).openErr = none)
    (hput1 : (w.faults s.opens).putErr "envoyToken" = none)
    (hput2 : (w.faults s.opens).putErr "envoyTokenExpiresAt" = none)
    (hcommit : (w.faults s.opens).commitErr = none)
    (hmar : w.MarshalBinary ((w.Now s.ticks).Add (Hour * 24)) = .ok bytes)
    (hnew : w.NewRequest ("https://" ++ s.e.Config.EnvoyIP ++ "/production.json") = true) :
    (GetProductionData w s).2.trace =
      s.trace ++ [loginRequest s.e.Config, tokenRequest s.e.Config sid,
                  productionRequest s.e.Config (ReadAll r2).1] ∧
    ((GetProductionData w s).2.trace.drop s.trace.length).map (fun r => (r.method, r.url)) =
      [("POST", "https://enlighten.enphaseenergy.com/login/login.json"),
       ("POST", "https://entrez.enphaseenergy.com/tokens"),
       ("GET", "https://" ++ s.e.Config.EnvoyIP ++ "/production.json")] := by
  have hempty : s.e.Cache.EnvoyToken = "" := by rw [hcache]
  have hticks : ticksAfterTest s = s.ticks := by simp [ticksAfterTest, hempty]
  have hmint := getEnvoyToken_mint_ok w s r1 r2 sid bytes b (Or.inl hempty) hlogin hread1 hdec
    htoken hdb hopen hput1 hput2 hcommit (by rw [hticks]; exact hmar)
  have hst := GetProductionData_state w s _ _ hmint hnew
  have htr : (GetProductionData w s).2.trace =
      s.trace ++ [loginRequest s.e.Config, tokenRequest s.e.Config sid,
                  productionRequest s.e.Config (ReadAll r2).1] := by
    rw [hst]; simp
  refine ⟨htr, ?_⟩
  rw [htr]
  simp [loginRequest, tokenRequest, productionRequest]

theorem GetProductionData_empty_cache_three_calls_witness :
    (GetProductionData (demoWorld "tok-A" telemetryBody) startSys).2.trace =
      [] ++ [loginRequest demoConfig, tokenRequest demoConfig "sid-1",
             productionRequest demoConfig "tok-A"] ∧
    ((GetProductionData (demoWorld "tok-A" telemetryBody) startSys).2.trace.drop 0).map
        (fun r => (r.method, r.url)) =
      [("POST", "https://enlighten.enphaseenergy.com/login/login.json"),
       ("POST", "https://entrez.enphaseenergy.com/tokens"),
       ("GET", "https://" ++ "192.168.1.50" ++ "/production.json")] :=
  GetProductionData_empty_cache_three_calls (demoWorld "tok-A" telemetryBody) startSys
    ⟨loginBody, none⟩ ⟨"tok-A", none⟩ "sid-1" "1700086400000000000" []
    rfl rfl rfl rfl rfl rfl rfl rfl rfl rfl rfl rfl

/-! ## A login answer without session id -/

theorem foldl_setSessionId_no_match (members : List (String × JVal))
    (acc : String × Option String)
    (hmiss : ∀ kv ∈ members, foldName kv.1 ≠ "SESSION_ID") :
    members.foldl setSessionId acc = acc := by
  induction members generalizing acc with
  | nil => rfl
  | cons kv rest ih =>
    have hkv : foldName kv.1 ≠ "SESSION_ID" := hmiss kv (List.mem_cons_self _ _)
    have hstep : setSessionId acc kv = acc := by
      simp [setSessionId, hkv]
    rw [List.foldl_cons, hstep]
    exact ih acc (fun kv1 h1 => hmiss kv1 (List.mem_cons_of_mem _ h1))

/-- C6, as stated, fails: the login body is the empty JSON object, yet
`getEnphaseSessionId` returns the empty session id without error and
`requestNewEnvoyToken` goes on to the device token endpoint. -/
theorem login_without_session_id_counterexample :
    emptyLoginWorld.Do [] (loginRequest demoConfig) = .ok ⟨emptyObjectBody, none⟩ ∧
    emptyLoginWorld.parseJSON emptyObjectBody = some (.obj []) ∧
    (getEnphaseSessionId emptyLoginWorld startSys).1 = .ok "" ∧
    (requestNewEnvoyToken emptyLoginWorld startSys).1 = .ok "tok-A" ∧
    (requestNewEnvoyToken emptyLoginWorld startSys).2.trace =
      [loginRequest demoConfig, tokenRequest demoConfig ""] :=
  ⟨rfl, rfl, rfl, rfl, rfl⟩

/-- C6, amended: for a login body that is a JSON object with no member matching
`session_id`, `getEnphaseSessionId` returns the empty session id and no error,
and `requestNewEnvoyToken` sends the token request with that empty session
id. -/
theorem getEnphaseSessionId_missing_session_id (w : World) (s : Sys) (r : Response)
    (members : List (String × JVal))
    (hdo : w.Do s.trace (loginRequest s.e.Config) = .ok r)
    (hread : r.readFailure = none)
    (hparse : w.parseJSON r.body = some (.obj members))
    (hmiss : ∀ kv ∈ members, foldName kv.1 ≠ "SESSION_ID") :
    (getEnphaseSessionId w s).1 = .ok "" ∧
    (requestNewEnvoyToken w s).2.trace =
      s.trace ++ [loginRequest s.e.Config, tokenRequest s.e.Config ""] := by
  have hdec : unmarshalLoginResponse w r.body = .ok "" := by
    simp [unmarshalLoginResponse, hparse, foldl_setSessionId_no_match members _ hmiss]
  have hsid := getEnphaseSessionId_ok w s r "" hdo hread hdec
  refine ⟨by rw [hsid], ?_⟩
  have hfst : (getEnphaseSessionId w s).1 = .ok "" := by rw [hsid]
  cases hdo2 : w.Do (s.trace ++ [loginRequest s.e.Config]) (tokenRequest s.e.Config "") with
  | ok r2 => rw [requestNewEnvoyToken_ok w s "" r2 hfst hdo2]
  | error err =>
    unfold requestNewEnvoyToken
    rw [hsid]
    simp [hdo2]

theorem getEnphaseSessionId_missing_session_id_witness :
    (getEnphaseSessionId emptyLoginWorld startSys).1 = .ok "" ∧
    (requestNewEnvoyToken emptyLoginWorld startSys).2.trace =
      [] ++ [loginRequest demoConfig, tokenRequest demoConfig ""] :=
  getEnphaseSessionId_missing_session_id emptyLoginWorld startSys ⟨emptyObjectBody, none⟩ []
    rfl rfl rfl (fun _ h => absurd h (List.not_mem_nil _))

/-- What remains of C6: when decoding the login body fails,
`requestNewEnvoyToken` returns the decode error and the login request is the
only request made. -/
theorem requestNewEnvoyToken_decode_error (w : World) (s : Sys) (r : Response) (err : String)
    (hdo : w.Do s.trace (loginRequest s.e.Config) = .ok r)
    (hread : r.readFailure = none)
    (hdec : unmarshalLoginResponse w r.body = .error err) :
    requestNewEnvoyToken w s =
      (.err ("error unmarshaling response body: " ++ err),
       { s with trace := s.trace ++ [loginRequest s.e.Config] }) := by
  have h : getEnphaseSessionId w s =
      (.err ("error unmarshaling response body: " ++ err),
       { s with trace := s.trace ++ [loginRequest s.e.Config] }) := by
    simp [getEnphaseSessionId, hdo, ReadAll, hread, hdec]
  unfold requestNewEnvoyToken
  rw [h]

/-! ## Cache persistence -/

theorem readCache_ok (w : World) (s : Sys) (b : List (String × String))
    (hdb : s.db = some b)
    (hopen : (w.faults s.opens).openErr = none)
    (hcreate : (w.faults s.opens).createErr = none)
    (hcommit : (w.faults s.opens).commitErr = none) :
    readCache w s =
      (.ok (),
       { s with
         opens := s.opens + 1
         db := some b
         e := { s.e with
                Cache :=
                  ⟨match bucketGet b "envoyToken" with
                    | some v => v
                    | none => s.e.Cache.EnvoyToken,
                   match bucketGet b "envoyTokenExpiresAt" with
                    | some bin =>
                      (match w.UnmarshalBinary bin with
                       | .ok t => t
                       | .error _ => Time.zero)
                    | none => s.e.Cache.EnvoyTokenExpiresAt⟩ } }) := by
  simp [readCache, hdb, hopen, hcreate, hcommit]

/-- C7: on a store that holds the bucket, `writeCache` followed by `readCache`
into a fresh client gives back the cache that was written, token and expiry
instant alike (store operations succeeding, the binary time codec decoding
what it encoded). -/
theorem writeCache_readCache_roundtrip (w : World) (s : Sys) (c : Config)
    (b : List (String × String)) (bytes : String)
    (hdb : s.db = some b)
    (hopen : (w.faults s.opens).openErr = none)
    (hput1 : (w.faults s.opens).putErr "envoyToken" = none)
    (hput2 : (w.faults s.opens).putErr "envoyTokenExpiresAt" = none)
    (hcommit : (w.faults s.opens).commitErr = none)
    (hopenR : (w.faults (s.opens + 1)).openErr = none)
    (hcreateR : (w.faults (s.opens + 1)).createErr = none)
    (hcommitR : (w.faults (s.opens + 1)).commitErr = none)
    (hmar : w.MarshalBinary s.e.Cache.EnvoyTokenExpiresAt = .ok bytes)
    (hunmar : w.UnmarshalBinary bytes = .ok s.e.Cache.EnvoyTokenExpiresAt) :
    (writeCache w s).1 = .ok () ∧
    (readCache w { (writeCache w s).2 with e := freshClient c }).1 = .ok () ∧
    (readCache w { (writeCache w s).2 with e := freshClient c }).2.e.Cache = s.e.Cache := by
  rw [writeCache_ok w s b bytes hdb hopen hput1 hput2 hcommit hmar]
  dsimp only
  have hr := readCache_ok w
    { e := freshClient c
      db := some (bucketPut (bucketPut b "envoyToken" s.e.Cache.EnvoyToken)
                    "envoyTokenExpiresAt" bytes)
      trace := s.trace
      ticks := s.ticks
      opens := s.opens + 1 } _ rfl hopenR hcreateR hcommitR
  rw [hr]
  refine ⟨rfl, rfl, ?_⟩
  dsimp only
  rw [bucketGet_bucketPut_other _ _ _ _ (by decide), bucketGet_bucketPut_same,
    bucketGet_bucketPut_same]
  simp [hunmar]

theorem writeCache_readCache_roundtrip_witness :
    (writeCache (demoWorld "tok-A" telemetryBody) validSys).1 = .ok () ∧
    (readCache (demoWorld "tok-A" telemetryBody)
      { (writeCache (demoWorld "tok-A" telemetryBody) validSys).2 with
        e := freshClient demoConfig }).1 = .ok () ∧
    (readCache (demoWorld "tok-A" telemetryBody)
      { (writeCache (demoWorld "tok-A" telemetryBody) validSys).2 with
        e := freshClient demoConfig }).2.e.Cache = ⟨"cached-token", ⟨1700003600000000000⟩⟩ :=
  writeCache_readCache_roundtrip (demoWorld "tok-A" telemetryBody) validSys demoConfig []
    "1700003600000000000" rfl rfl rfl rfl rfl rfl rfl rfl rfl rfl

/-! ## Reading the telemetry arrays -/

theorem scan_measurements (ty : String) (xs : List JVal)
    (hxs : ∀ v ∈ xs, isMeasurement v = true) (cur : Float64) :
    scan ty cur xs =
      some (match (xs.filter (fun v => measurementTypeOf v == some ty)).getLast? with
            | some v => (wNowOf v).getD 0
            | none => cur) := by
  induction xs generalizing cur with
  | nil => rfl
  | cons v rest ih =>
    have hrest : ∀ u ∈ rest, isMeasurement u = true :=
      fun u hu => hxs u (List.mem_cons_of_mem _ hu)
    have hv := hxs v (List.mem_cons_self _ _)
    cases v with
    | obj vals =>
      simp only [isMeasurement, measurementTypeOf, wNowOf, Bool.and_eq_true] at hv
      obtain ⟨hty, hw⟩ := hv
      cases hmt : mapIndex vals "measurementType" with
      | none => rw [hmt] at hty; simp at hty
      | some mt =>
        cases mt with
        | str t =>
          cases hwn : mapIndex vals "wNow" with
          | none => rw [hwn] at hw; simp at hw
          | some wn =>
            cases wn with
            | num x =>
              by_cases heq : t = ty
              · have hscan : scan ty cur (JVal.obj vals :: rest) = scan ty x rest := by
                  simp [scan, hmt, hwn, heq]
                have hfil : (JVal.obj vals :: rest).filter
                    (fun v => measurementTypeOf v == some ty) =
                    JVal.obj vals :: rest.filter (fun v => measurementTypeOf v == some ty) := by
                  simp [List.filter, measurementTypeOf, hmt, heq]
                rw [hscan, hfil, ih hrest x]
                cases hl : rest.filter (fun v => measurementTypeOf v == some ty) with
                | nil => simp [wNowOf, hwn]
                | cons u l =>
                  rw [List.getLast?_cons_cons, List.getLast?_eq_getLast _ (List.cons_ne_nil u l)]
              · have hscan : scan ty cur (JVal.obj vals :: rest) = scan ty cur rest := by
                  simp [scan, hmt, heq]
                have hfil : (JVal.obj vals :: rest).filter
                    (fun v => measurementTypeOf v == some ty) =
                    rest.filter (fun v => measurementTypeOf v == some ty) := by
                  have hb : (t == ty) = false := by simpa using heq
                  simp [List.filter, measurementTypeOf, hmt, hb]
                rw [hscan, hfil, ih hrest cur]
            | null => rw [hwn] at hw; simp at hw
            | bool _ => rw [hwn] at hw; simp at hw
            | str _ => rw [hwn] at hw; simp at hw
            | arr _ => rw [hwn] at hw; simp at hw
            | obj _ => rw [hwn] at hw; simp at hw
        | null => rw [hmt] at hty; simp at hty
        | bool _ => rw [hmt] at hty; simp at hty
        | num _ => rw [hmt] at hty; simp at hty
        | arr _ => rw [hmt] at hty; simp at hty
        | obj _ => rw [hmt] at hty; simp at hty
    | null => simp [isMeasurement, measurementTypeOf] at hv
    | bool _ => simp [isMeasurement, measurementTypeOf] at hv
    | num _ => simp [isMeasurement, measurementTypeOf] at hv
    | str _ => simp [isMeasurement, measurementTypeOf] at hv
    | arr _ => simp [isMeasurement, measurementTypeOf] at hv

theorem scan_eq_lastWNow (ty : String) (xs : List JVal)
    (hxs : ∀ v ∈ xs, isMeasurement v = true) :
    scan ty 0 xs = some (lastWNow ty xs) := by
  rw [scan_measurements ty xs hxs 0]
  rfl

theorem scan_no_match (ty : String) (xs : List JVal) (cur : Float64)
    (hxs : ∀ v ∈ xs, isObject v = true ∧ measurementTypeOf v ≠ some ty) :
    scan ty cur xs = some cur := by
  induction xs with
  | nil => rfl
  | cons v rest ih =>
    have hrest := ih (fun u hu => hxs u (List.mem_cons_of_mem _ hu))
    obtain ⟨hobj, hne⟩ := hxs v (List.mem_cons_self _ _)
    cases v with
    | obj vals =>
      cases hmt : mapIndex vals "measurementType" with
      | none => simp [scan, hmt, hrest]
      | some mt =>
        cases mt with
        | str t =>
          have hneq : t ≠ ty := by
            intro h
            apply hne
            simp [measurementTypeOf, hmt, h]
          simp [scan, hmt, hneq, hrest]
        | null => simp [scan, hmt, hrest]
        | bool _ => simp [scan, hmt, hrest]
        | num _ => simp [scan, hmt, hrest]
        | arr _ => simp [scan, hmt, hrest]
        | obj _ => simp [scan, hmt, hrest]
    | null => simp [isObject] at hobj
    | bool _ => simp [isObject] at hobj
    | num _ => simp [isObject] at hobj
    | str _ => simp [isObject] at hobj
    | arr _ => simp [isObject] at hobj

/-- The value `GetProductionData` returns once token, request and transport
went through and the body decoded to an object with both arrays. -/
theorem GetProductionData_result (w : World) (s sa : Sys) (tok : String) (res : Response)
    (members : List (String × JVal)) (cs ps : List JVal)
    (htok : getEnvoyToken w s = (.ok tok, sa))
    (hnew : w.NewRequest (productionRequest sa.e.Config tok).url = true)
    (hdo : w.Do sa.trace (productionRequest sa.e.Config tok) = .ok res)
    (hparse : w.parseJSON (ReadAll res).1 = some (.obj members))
    (hcons : mapIndex members "consumption" = some (.arr cs))
    (hprod : mapIndex members "production" = some (.arr ps)) :
    (GetProductionData w s).1 =
      match scan "total-consumption" 0 cs with
      | none => .aborted "interface conversion"
      | some c =>
        match scan "production" 0 ps with
        | none => .aborted "interface conversion"
        | some p => .ok ⟨p, c⟩ := by
  unfold GetProductionData
  rw [htok]
  simp only [hnew, Bool.true_eq_false, if_false, hdo, unmarshalMap, hparse, hcons, hprod]
  repeat (first | rfl | split)

/-- C8: for a telemetry payload whose `consumption` and `production` fields are
arrays of measurement objects, `GetProductionData` returns as
`ConsumptionWattsNow` the `wNow` of the last element of `consumption` whose
`measurementType` is `total-consumption`, and as `ProductionWattsNow` the
`wNow` of the last element of `production` whose `measurementType` is
`production`. -/
theorem GetProductionData_last_matching (w : World) (s sa : Sys) (tok : String)
    (res : Response) (members : List (String × JVal)) (cs ps : List JVal)
    (htok : getEnvoyToken w s = (.ok tok, sa))
    (hnew : w.NewRequest (productionRequest sa.e.Config tok).url = true)
    (hdo : w.Do sa.trace (productionRequest sa.e.Config tok) = .ok res)
    (hparse : w.parseJSON (ReadAll res).1 = some (.obj members))
    (hcons : mapIndex members "consumption" = some (.arr cs))
    (hprod : mapIndex members "production" = some (.arr ps))
    (hcs : ∀ v ∈ cs, isMeasurement v = true)
    (hps : ∀ v ∈ ps, isMeasurement v = true) :
    (GetProductionData w s).1 =
      .ok { ProductionWattsNow := lastWNow "production" ps
            ConsumptionWattsNow := lastWNow "total-consumption" cs } := by
  rw [GetProductionData_result w s sa tok res members cs ps htok hnew hdo hparse hcons hprod,
    scan_eq_lastWNow _ cs hcs, scan_eq_lastWNow _ ps hps]

theorem GetProductionData_last_matching_witness :
    (GetProductionData (demoWorld "tok-A" telemetryBody) validSys).1 =
      .ok { ProductionWattsNow := 567.8, ConsumptionWattsNow := 123.4 } :=
  GetProductionData_last_matching (demoWorld "tok-A" telemetryBody) validSys
    { validSys with ticks := 1 } "cached-token" ⟨telemetryBody, none⟩
    [("production", .arr [.obj [("measurementType", .str "production"), ("wNow", .num 567.8)]]),
     ("consumption",
       .arr [.obj [("measurementType", .str "total-consumption"), ("wNow", .num 123.4)]])]
    [.obj [("measurementType", .str "total-consumption"), ("wNow", .num 123.4)]]
    [.obj [("measurementType", .str "production"), ("wNow", .num 567.8)]]
    rfl rfl rfl rfl rfl rfl
    (fun v hv => by simp only [List.mem_singleton] at hv; subst hv; rfl)
    (fun v hv => by simp only [List.mem_singleton] at hv; subst hv; rfl)

theorem scan_passes (ty : String) (xs : List JVal)
    (hxs : ∀ v ∈ xs, passesScan ty v) (cur : Float64) :
    scan ty cur xs =
      some (match (xs.filter (fun v => measurementTypeOf v == some ty)).getLast? with
            | some v => (wNowOf v).getD 0
            | none => cur) := by
  induction xs generalizing cur with
  | nil => rfl
  | cons v rest ih =>
    have hrest : ∀ u ∈ rest, passesScan ty u :=
      fun u hu => hxs u (List.mem_cons_of_mem _ hu)
    obtain ⟨hobj, hnum⟩ := hxs v (List.mem_cons_self _ _)
    cases v with
    | obj vals =>
      have hskip : (∀ t, mapIndex vals "measurementType" ≠ some (.str t)) →
          scan ty cur (JVal.obj vals :: rest) =
            some (match ((JVal.obj vals :: rest).filter
                    (fun v => measurementTypeOf v == some ty)).getLast? with
                  | some v => (wNowOf v).getD 0
                  | none => cur) := by
        intro hno
        have hscan : scan ty cur (JVal.obj vals :: rest) = scan ty cur rest := by
          cases hmt : mapIndex vals "measurementType" with
          | none => simp [scan, hmt]
          | some mt =>
            cases mt with
            | str t => exact absurd hmt (hno t)
            | null => simp [scan, hmt]
            | bool _ => simp [scan, hmt]
            | num _ => simp [scan, hmt]
            | arr _ => simp [scan, hmt]
            | obj _ => simp [scan, hmt]
        have hmty : measurementTypeOf (JVal.obj vals) = none := by
          cases hmt : mapIndex vals "measurementType" with
          | none => simp [measurementTypeOf, hmt]
          | some mt =>
            cases mt with
            | str t => exact absurd hmt (hno t)
            | null => simp [measurementTypeOf, hmt]
            | bool _ => simp [measurementTypeOf, hmt]
            | num _ => simp [measurementTypeOf, hmt]
            | arr _ => simp [measurementTypeOf, hmt]
            | obj _ => simp [measurementTypeOf, hmt]
        have hfil : (JVal.obj vals :: rest).filter
            (fun v => measurementTypeOf v == some ty) =
            rest.filter (fun v => measurementTypeOf v == some ty) := by
          simp [List.filter, hmty]
        rw [hscan, hfil, ih hrest cur]
      by_cases hstr : ∃ t, mapIndex vals "measurementType" = some (.str t)
      · obtain ⟨t, hmt⟩ := hstr
        by_cases heq : t = ty
        · have hmty : measurementTypeOf (JVal.obj vals) = some ty := by
            simp [measurementTypeOf, hmt, heq]
          have hw := hnum hmty
          cases hwn : mapIndex vals "wNow" with
          | none => simp [wNowOf, hwn] at hw
          | some wn =>
            cases wn with
            | num x =>
              have hscan : scan ty cur (JVal.obj vals :: rest) = scan ty x rest := by
                simp [scan, hmt, hwn, heq]
              have hfil : (JVal.obj vals :: rest).filter
                  (fun v => measurementTypeOf v == some ty) =
                  JVal.obj vals :: rest.filter (fun v => measurementTypeOf v == some ty) := by
                simp [List.filter, hmty]
              rw [hscan, hfil, ih hrest x]
              cases hl : rest.filter (fun v => measurementTypeOf v == some ty) with
              | nil => simp [wNowOf, hwn]
              | cons u l =>
                rw [List.getLast?_cons_cons, List.getLast?_eq_getLast _ (List.cons_ne_nil u l)]
            | null => simp [wNowOf, hwn] at hw
            | bool _ => simp [wNowOf, hwn] at hw
            | str _ => simp [wNowOf, hwn] at hw
            | arr _ => simp [wNowOf, hwn] at hw
            | obj _ => simp [wNowOf, hwn] at hw
        · have hb : (t == ty) = false := by simpa using heq
          have hscan : scan ty cur (JVal.obj vals :: rest) = scan ty cur rest := by
            simp [scan, hmt, heq]
          have hfil : (JVal.obj vals :: rest).filter
              (fun v => measurementTypeOf v == some ty) =
              rest.filter (fun v => measurementTypeOf v == some ty) := by
            simp [List.filter, measurementTypeOf, hmt, hb]
          rw [hscan, hfil, ih hrest cur]
      · exact hskip (fun t ht => hstr ⟨t, ht⟩)
    | null => simp [isObject] at hobj
    | bool _ => simp [isObject] at hobj
    | num _ => simp [isObject] at hobj
    | str _ => simp [isObject] at hobj
    | arr _ => simp [isObject] at hobj

theorem scan_passes_eq_lastWNow (ty : String) (xs : List JVal)
    (hxs : ∀ v ∈ xs, passesScan ty v) :
    scan ty 0 xs = some (lastWNow ty xs) := by
  rw [scan_passes ty xs hxs 0]
  rfl

/-- C9, as stated, fails: the payload holds a `production` array and no
`consumption` field, hence no `total-consumption` entry, and
`GetProductionData` aborts on the type assertion instead of returning 0. -/
theorem GetProductionData_no_total_consumption_counterexample :
    productionOnlyWorld.Do [] (productionRequest demoConfig "cached-token") =
      .ok ⟨productionOnlyBody, none⟩ ∧
    mapIndex (unmarshalMap productionOnlyWorld productionOnlyBody) "consumption" = none ∧
    (∃ ps, mapIndex (unmarshalMap productionOnlyWorld productionOnlyBody) "production" =
      some (.arr ps) ∧ ∀ v ∈ ps, isMeasurement v = true) ∧
    (GetProductionData productionOnlyWorld validSys).1 = .aborted "interface conversion" ∧
    (∀ pd, (GetProductionData productionOnlyWorld validSys).1 ≠ .ok pd) := by
  refine ⟨rfl, rfl, ⟨_, rfl, ?_⟩, rfl, ?_⟩
  · intro v hv
    simp only [List.mem_singleton] at hv
    subst hv
    rfl
  · intro pd h
    have habort : (GetProductionData productionOnlyWorld validSys).1 =
        .aborted "interface conversion" := rfl
    rw [habort] at h
    cases h

/-- C9, amended: for a telemetry payload that is an object whose `consumption`
and `production` fields are arrays of objects, with no `total-consumption`
entry in `consumption` and a numeric `wNow` in every `production` element of
type `production`, `GetProductionData` returns a value, not an error and not
an abort, and its `ConsumptionWattsNow` is 0. -/
theorem GetProductionData_no_total_consumption (w : World) (s sa : Sys) (tok : String)
    (res : Response) (members : List (String × JVal)) (cs ps : List JVal)
    (htok : getEnvoyToken w s = (.ok tok, sa))
    (hnew : w.NewRequest (productionRequest sa.e.Config tok).url = true)
    (hdo : w.Do sa.trace (productionRequest sa.e.Config tok) = .ok res)
    (hparse : w.parseJSON (ReadAll res).1 = some (.obj members))
    (hcons : mapIndex members "consumption" = some (.arr cs))
    (hprod : mapIndex members "production" = some (.arr ps))
    (hcs : ∀ v ∈ cs, isObject v = true ∧ measurementTypeOf v ≠ some "total-consumption")
    (hps : ∀ v ∈ ps, passesScan "production" v) :
    (GetProductionData w s).1 =
      .ok { ProductionWattsNow := lastWNow "production" ps, ConsumptionWattsNow := 0 } := by
  rw [GetProductionData_result w s sa tok res members cs ps htok hnew hdo hparse hcons hprod,
    scan_no_match _ cs 0 hcs, scan_passes_eq_lastWNow _ ps hps]

theorem GetProductionData_no_total_consumption_witness :
    (GetProductionData mixedWorld validSys).1 =
      .ok { ProductionWattsNow := 567.8, ConsumptionWattsNow := 0 } :=
  GetProductionData_no_total_consumption mixedWorld validSys
    { validSys with ticks := 1 } "cached-token" ⟨mixedBody, none⟩
    [("production",
       .arr [.obj [("type", .str "inverters")],
             .obj [("measurementType", .str "production"), ("wNow", .num 567.8)]]),
     ("consumption", .arr [.obj [("measurementType", .str "net-consumption")]])]
    [.obj [("measurementType", .str "net-consumption")]]
    [.obj [("type", .str "inverters")],
     .obj [("measurementType", .str "production"), ("wNow", .num 567.8)]]
    rfl rfl rfl rfl rfl rfl
    (fun v hv => by
      simp only [List.mem_singleton] at hv; subst hv; exact ⟨rfl, by decide⟩)
    (fun v hv => by
      simp only [List.mem_cons, List.mem_singleton, List.not_mem_nil, or_false] at hv
      rcases hv with hv | hv
      · subst hv; exact ⟨rfl, fun h => absurd h (by decide)⟩
      · subst hv; exact ⟨rfl, fun _ => rfl⟩)

/-- A payload without the `consumption` array makes `GetProductionData`
abort, whatever else it holds. -/
theorem GetProductionData_aborts_without_consumption (w : World) (s sa : Sys) (tok : String)
    (res : Response)
    (htok : getEnvoyToken w s = (.ok tok, sa))
    (hnew : w.NewRequest (productionRequest sa.e.Config tok).url = true)
    (hdo : w.Do sa.trace (productionRequest sa.e.Config tok) = .ok res)
    (hcons : mapIndex (unmarshalMap w (ReadAll res).1) "consumption" = none) :
    (GetProductionData w s).1 = .aborted "interface conversion" := by
  unfold GetProductionData
  rw [htok]
  simp only [hnew, Bool.true_eq_false, if_false, hdo, hcons]

/-! ## A failed mint -/

theorem requestNewEnvoyToken_ticks (w : World) (s : Sys) (t : Nat) :
    (requestNewEnvoyToken w { s with ticks := t }).1 = (requestNewEnvoyToken w s).1 ∧
    (requestNewEnvoyToken w { s with ticks := t }).2.e = s.e ∧
    (requestNewEnvoyToken w { s with ticks := t }).2.db = s.db ∧
    (requestNewEnvoyToken w { s with ticks := t }).2.opens = s.opens := by
  obtain ⟨he, hdb, _, hop, _⟩ := requestNewEnvoyToken_frame w { s with ticks := t }
  refine ⟨?_, he, hdb, hop⟩
  unfold requestNewEnvoyToken getEnphaseSessionId
  dsimp only
  cases w.Do s.trace (loginRequest s.e.Config) with
  | error err => rfl
  | ok resp =>
    dsimp only
    rcases ReadAll resp with ⟨body, _ | rerr⟩
    · dsimp only
      cases unmarshalLoginResponse w body with
      | error err => rfl
      | ok sid =>
        dsimp only
        cases w.Do (s.trace ++ [loginRequest s.e.Config]) (tokenRequest s.e.Config sid) with
        | error err => rfl
        | ok r2 => rfl
    · rfl

/-- C10, as stated, fails: after a failed mint the in-memory token is no
longer the one held before the call. -/
theorem getEnvoyToken_failed_mint_counterexample :
    expiredSys.e.Cache.EnvoyToken = "old-token" ∧
    expiredSys.e.Cache.EnvoyTokenExpiresAt.ns < (offlineWorld.Now expiredSys.ticks).ns ∧
    (getEnvoyToken offlineWorld expiredSys).1 =
      .err ("error requesting new envoy token: error making request: " ++
            "dial tcp: connect: network is unreachable") ∧
    (getEnvoyToken offlineWorld expiredSys).2.e.Cache.EnvoyToken = "" ∧
    (getEnvoyToken offlineWorld expiredSys).2.e.Cache.EnvoyToken ≠
      expiredSys.e.Cache.EnvoyToken :=
  ⟨rfl, by decide, rfl, rfl, by decide⟩

/-- C10, amended: with an expired cached token (non-empty or not), when the
mint sequence fails `getEnvoyToken` returns an error, the in-memory token is
reset to the empty string, the expiry stays as it was, and the store is
neither opened nor written. -/
theorem getEnvoyToken_failed_mint (w : World) (s : Sys) (msg : String)
    (hexp : s.e.Cache.EnvoyTokenExpiresAt.ns < (w.Now s.ticks).ns)
    (hfail : (requestNewEnvoyToken w s).1 = .err msg) :
    (getEnvoyToken w s).1 = .err ("error requesting new envoy token: " ++ msg) ∧
    (getEnvoyToken w s).2.e.Cache.EnvoyToken = "" ∧
    (getEnvoyToken w s).2.e.Cache.EnvoyTokenExpiresAt = s.e.Cache.EnvoyTokenExpiresAt ∧
    (getEnvoyToken w s).2.db = s.db ∧
    (getEnvoyToken w s).2.opens = s.opens := by
  obtain ⟨h1, he, hdb, hop⟩ := requestNewEnvoyToken_ticks w s (ticksAfterTest s)
  rw [hfail] at h1
  rw [getEnvoyToken_mint_eq w s (Or.inr hexp)]
  split
  · rename_i heq; rw [heq] at h1; cases h1
  · rename_i m s1 heq
    rw [heq] at h1 he hdb hop
    simp only [Res.err.injEq] at h1
    simp only at he hdb hop
    subst h1
    exact ⟨rfl, rfl, by rw [he], hdb, hop⟩
  · rename_i heq; rw [heq] at h1; cases h1

theorem getEnvoyToken_failed_mint_witness :
    (getEnvoyToken offlineWorld expiredSys).1 =
      .err ("error requesting new envoy token: " ++
            "error making request: dial tcp: connect: network is unreachable") ∧
    (getEnvoyToken offlineWorld expiredSys).2.e.Cache.EnvoyToken = "" ∧
    (getEnvoyToken offlineWorld expiredSys).2.e.Cache.EnvoyTokenExpiresAt =
      ⟨1699996400000000000⟩ ∧
    (getEnvoyToken offlineWorld expiredSys).2.db = some [("envoyToken", "old-token")] ∧
    (getEnvoyToken offlineWorld expiredSys).2.opens = 1 :=
  getEnvoyToken_failed_mint offlineWorld expiredSys
    "error making request: dial tcp: connect: network is unreachable"
    (by decide) rfl

/-! ## Two calls in a row -/

theorem GetProductionData_ok_token (w : World) (s : Sys) (pd : productionData)
    (h : (GetProductionData w s).1 = .ok pd) :
    ∃ tok sa, getEnvoyToken w s = (.ok tok, sa) ∧
      w.NewRequest (productionRequest sa.e.Config tok).url = true := by
  unfold GetProductionData at h
  split at h
  · cases h
  · cases h
  · rename_i tok sa heq
    refine ⟨tok, sa, heq, ?_⟩
    cases hnew : w.NewRequest (productionRequest sa.e.Config tok).url with
    | true => rfl
    | false =>
      simp only [hnew, if_true] at h
      cases h

theorem getEnvoyToken_empty_ok_inv (w : World) (s sa : Sys) (tok : String)
    (hempty : s.e.Cache.EnvoyToken = "")
    (h : getEnvoyToken w s = (.ok tok, sa)) :
    ∃ sid,
      sa.e = { Cache := ⟨tok, (w.Now s.ticks).Add (Hour * 24)⟩, Config := s.e.Config } ∧
      sa.trace = s.trace ++ [loginRequest s.e.Config, tokenRequest s.e.Config sid] ∧
      sa.ticks = s.ticks + 1 := by
  have hticks : ticksAfterTest s = s.ticks := by simp [ticksAfterTest, hempty]
  rw [getEnvoyToken_mint_eq w s (Or.inl hempty), hticks] at h
  split at h
  · cases h
  · cases h
  · rename_i tok1 s1 heq
    obtain ⟨sid, hs1⟩ := requestNewEnvoyToken_ok_inv w _ s1 tok1 heq
    subst hs1
    dsimp only at h
    split at h
    · cases h
    · cases h
    · rename_i u s3 heq2
      obtain ⟨he, htr, hti, _⟩ := writeCache_frame_of_eq w _ s3 _ heq2
      simp only [Prod.mk.injEq, Res.ok.injEq] at h
      obtain ⟨h1, h2⟩ := h
      subst h2
      simp only at he htr hti
      refine ⟨sid, ?_, htr, hti⟩
      rw [he] at h1
      simp only at h1
      rw [he, h1]

/-- C5, as stated, fails: the token endpoint answers with an empty body, the
first call succeeds, and the second call, one clock reading later, issues
three requests again. -/
theorem GetProductionData_second_call_counterexample :
    startSys.e.Cache = ⟨"", Time.zero⟩ ∧
    (GetProductionData (demoWorld "" telemetryBody) startSys).1 =
      .ok { ProductionWattsNow := 567.8, ConsumptionWattsNow := 123.4 } ∧
    (GetProductionData (demoWorld "" telemetryBody) startSys).2.trace.length = 3 ∧
    ((demoWorld "" telemetryBody).Now
        (GetProductionData (demoWorld "" telemetryBody) startSys).2.ticks).ns <
      ((demoWorld "" telemetryBody).Now startSys.ticks).ns + Hour * 24 ∧
    (GetProductionData (demoWorld "" telemetryBody)
      (GetProductionData (demoWorld "" telemetryBody) startSys).2).2.trace =
      [loginRequest demoConfig, tokenRequest demoConfig "sid-1",
       productionRequest demoConfig "",
       loginRequest demoConfig, tokenRequest demoConfig "sid-1",
       productionRequest demoConfig ""] :=
  ⟨rfl, rfl, rfl, by decide, rfl⟩

/-- C5, amended: after a successful `GetProductionData` on an empty cache that
cached a non-empty token, a second `GetProductionData` made less than 24 hours
later issues exactly one request, the telemetry GET, carrying the same token
as the GET of the first call, and leaves the cached token and expiry as they
were. -/
theorem GetProductionData_second_call (w : World) (s0 s1 : Sys) (pd : productionData)
    (hcache : s0.e.Cache = ⟨"", Time.zero⟩)
    (hfirst : GetProductionData w s0 = (.ok pd, s1))
    (htoken : s1.e.Cache.EnvoyToken ≠ "")
    (hsoon : (w.Now s1.ticks).ns < (w.Now s0.ticks).ns + Hour * 24) :
    (∃ sid, s1.trace =
      s0.trace ++ [loginRequest s0.e.Config, tokenRequest s0.e.Config sid,
                   productionRequest s0.e.Config s1.e.Cache.EnvoyToken]) ∧
    (GetProductionData w s1).2.trace =
      s1.trace ++ [productionRequest s0.e.Config s1.e.Cache.EnvoyToken] ∧
    (GetProductionData w s1).2.e.Cache = s1.e.Cache := by
  have hempty : s0.e.Cache.EnvoyToken = "" := by rw [hcache]
  have hres : (GetProductionData w s0).1 = .ok pd := by rw [hfirst]
  obtain ⟨tok, sa, htok, hnew⟩ := GetProductionData_ok_token w s0 pd hres
  obtain ⟨sid, hsae, hsatr, hsati⟩ := getEnvoyToken_empty_ok_inv w s0 sa tok hempty htok
  have hst := GetProductionData_state w s0 sa tok htok hnew
  rw [hfirst] at hst
  simp only at hst
  have hcfg : sa.e.Config = s0.e.Config := by rw [hsae]
  have hs1e : s1.e = { Cache := ⟨tok, (w.Now s0.ticks).Add (Hour * 24)⟩, Config := s0.e.Config } := by
    rw [hst]; exact hsae
  have hs1tok : s1.e.Cache.EnvoyToken = tok := by rw [hs1e]
  have hs1ti : s1.ticks = s0.ticks + 1 := by rw [hst]; exact hsati
  have hs1tr : s1.trace = s0.trace ++ [loginRequest s0.e.Config, tokenRequest s0.e.Config sid,
      productionRequest s0.e.Config tok] := by
    rw [hst]; simp [hsatr, hcfg]
  have hb : s1.e.Cache.EnvoyTokenExpiresAt.Before (w.Now s1.ticks) = false := by
    rw [hs1e]
    simp only [Time.Before, Time.Add, decide_eq_false_iff_not]
    omega
  have hsecond : getEnvoyToken w s1 = (.ok s1.e.Cache.EnvoyToken, { s1 with ticks := s1.ticks + 1 }) := by
    simp [getEnvoyToken, htoken, hb]
  have hcfg1 : s1.e.Config = s0.e.Config := by rw [hs1e]
  have hnew1 : w.NewRequest
      (productionRequest ({ s1 with ticks := s1.ticks + 1 } : Sys).e.Config
        s1.e.Cache.EnvoyToken).url = true := by
    simp only [hcfg1, hs1tok]
    rw [hcfg] at hnew
    exact hnew
  have hst2 := GetProductionData_state w s1 _ _ hsecond hnew1
  refine ⟨⟨sid, by rw [hs1tr, hs1tok]⟩, ?_, ?_⟩
  · rw [hst2]; simp only [hcfg1]
  · rw [hst2]

theorem GetProductionData_second_call_witness :
    (∃ sid, (GetProductionData (demoWorld "tok-A" telemetryBody) startSys).2.trace =
      [] ++ [loginRequest demoConfig, tokenRequest demoConfig sid,
             productionRequest demoConfig
               (GetProductionData (demoWorld "tok-A" telemetryBody) startSys).2.e.Cache.EnvoyToken]) ∧
    (GetProductionData (demoWorld "tok-A" telemetryBody)
        (GetProductionData (demoWorld "tok-A" telemetryBody) startSys).2).2.trace =
      (GetProductionData (demoWorld "tok-A" telemetryBody) startSys).2.trace ++
        [productionRequest demoConfig
          (GetProductionData (demoWorld "tok-A" telemetryBody) startSys).2.e.Cache.EnvoyToken] ∧
    (GetProductionData (demoWorld "tok-A" telemetryBody)
        (GetProductionData (demoWorld "tok-A" telemetryBody) startSys).2).2.e.Cache =
      (GetProductionData (demoWorld "tok-A" telemetryBody) startSys).2.e.Cache :=
  GetProductionData_second_call (demoWorld "tok-A" telemetryBody) startSys
    (GetProductionData (demoWorld "tok-A" telemetryBody) startSys).2
    { ProductionWattsNow := 567.8, ConsumptionWattsNow := 123.4 }
    rfl rfl (by decide) (by decide)

end Envoy
